import Mathlib

/-!
Verification of the fleet idling-cost analysis program.

The development shallowly embeds the program's calculation core:

* `parse_time_string` — the duration parser built on the regular expression
  `\((\d+)D,\s*(\d+)H,\s*(\d+)M\)` searched anywhere in the input
  (leftmost match), returning total minutes or `none`.
* `validate` — the input-validation chain run by the calculate button,
  reproducing its check order.
* The economics engine — every derived quantity (`idle_percentage`,
  `combustible_ralenti`, `merma_*`, `ahorro_anual`, `neto_mensual`,
  `meses_para_recuperar`, `roi_days`, and the real-idle-adjusted figures)
  as a pure function of the input record `Params`.
* The amortization simulator — the 60-month accumulation loop
  (`evolRows` / `data_evolucion`) storing values rounded to two decimals
  via Python's `round` (half-to-even), and `roi_mes`, the minimum month
  whose stored cumulative net gain is nonnegative.

Python floats are modelled as exact rationals (`ℚ`); Python's `None` and
`float('inf')` sentinels are modelled as `Option`/`WithTop` `none`.
-/

/-- Whitespace characters matched by the regex class `\s`
(ASCII subset: space, tab, newline, carriage return, vertical tab, form feed). -/
def isPySpace (c : Char) : Bool :=
  c == ' ' || c == '\t' || c == '\n' || c == '\r' || c == '\x0b' || c == '\x0c'

/-- Greedy `\d+`: split a character list into its maximal leading run of
decimal digits and the remainder. -/
def takeDigits : List Char → List Char × List Char
  | [] => ([], [])
  | c :: cs =>
    if c.isDigit then
      let p := takeDigits cs
      (c :: p.1, p.2)
    else ([], c :: cs)

/-- Decimal value of a digit string, as computed by Python's `int` on a
matched group. -/
def digitsVal (ds : List Char) : ℕ :=
  ds.foldl (fun a c => a * 10 + (c.toNat - 48)) 0

/-- Match `(\d+)` at the head of the input: at least one digit is required;
returns the numeric value of the maximal digit run and the remainder. -/
def digitsSplit (l : List Char) : Option (ℕ × List Char) :=
  match takeDigits l with
  | ([], _) => none
  | (ds, rest) => some (digitsVal ds, rest)

/-- Greedy `\s*`: drop the maximal leading run of whitespace. -/
def dropWs : List Char → List Char
  | [] => []
  | c :: cs => if isPySpace c then dropWs cs else c :: cs

/-- Consume one expected literal character at the head of the input. -/
def expectChar (c : Char) (l : List Char) : Option (List Char) :=
  match l with
  | [] => none
  | x :: xs => if x = c then some xs else none

/-- Match the full pattern `\((\d+)D,\s*(\d+)H,\s*(\d+)M\)` at the start of
the input, returning the three captured numbers. -/
def matchTriple (l : List Char) : Option (ℕ × ℕ × ℕ) := do
  let r1 ← expectChar '(' l
  let (d, r2) ← digitsSplit r1
  let r3 ← expectChar 'D' r2
  let r4 ← expectChar ',' r3
  let (h, r5) ← digitsSplit (dropWs r4)
  let r6 ← expectChar 'H' r5
  let r7 ← expectChar ',' r6
  let (m, r8) ← digitsSplit (dropWs r7)
  let r9 ← expectChar 'M' r8
  let _ ← expectChar ')' r9
  pure (d, h, m)

/-- `re.search` for the pattern: try each start position left to right. -/
def searchTriple : List Char → Option (ℕ × ℕ × ℕ)
  | [] => matchTriple []
  | c :: rest =>
    match matchTriple (c :: rest) with
    | some r => some r
    | none => searchTriple rest

/-- `parse_time_string`: extract days, hours and minutes from a string in the
format `(XD, YH, ZM)` and return total minutes `days*24*60 + hours*60 +
minutes`, or `none` (Python `None`) when no match occurs anywhere. -/
def parse_time_string (s : String) : Option ℕ :=
  (searchTriple s.data).map (fun t => t.1 * 24 * 60 + t.2.1 * 60 + t.2.2)

/-- Specification-side predicate: a nonempty list of decimal digits
(one `(\d+)` group). -/
def IsDigitList (l : List Char) : Prop := l ≠ [] ∧ ∀ c ∈ l, c.isDigit

/-- Specification-side predicate: a (possibly empty) run of whitespace
(one `\s*` group). -/
def IsWsList (l : List Char) : Prop := ∀ c ∈ l, isPySpace c

/-- The character sequence of a duration-pattern instance
`(<ds>D,<ws1><hs>H,<ws2><ms>M)` followed by an arbitrary suffix. -/
def durationChars (ds ws1 hs ws2 ms rest : List Char) : List Char :=
  '(' :: (ds ++ 'D' :: ',' :: (ws1 ++ (hs ++ 'H' :: ',' :: (ws2 ++ (ms ++ 'M' :: ')' :: rest)))))

/-- Specification-side predicate: the duration pattern matches at the start
of the given character list. -/
def MatchesAt (l : List Char) : Prop :=
  ∃ ds ws1 hs ws2 ms rest, IsDigitList ds ∧ IsWsList ws1 ∧ IsDigitList hs ∧
    IsWsList ws2 ∧ IsDigitList ms ∧ l = durationChars ds ws1 hs ws2 ms rest

/-- Specification-side predicate: the duration pattern matches somewhere in
the string. -/
def ContainsDuration (s : String) : Prop := ∃ i, MatchesAt (s.data.drop i)

/-- The distinct validation failures reported by the calculate handler, in
source order. -/
inductive ValidationError where
  | malformedIdle
  | malformedMoving
  | nonPositiveFuel
  | nonPositivePrice
  | zeroDuration
  deriving DecidableEq, Repr

/-- The validation chain of the calculate button: idle parse, then moving
parse, then fuel positivity, then price positivity, then nonzero total
duration; on success, the parsed idle/moving minutes. -/
def validate (idle_time moving_time : String) (combustible_total precio_litro : ℚ) :
    Except ValidationError (ℕ × ℕ) :=
  match parse_time_string idle_time with
  | none => .error .malformedIdle
  | some idle_minutes =>
    match parse_time_string moving_time with
    | none => .error .malformedMoving
    | some moving_minutes =>
      if combustible_total ≤ 0 then .error .nonPositiveFuel
      else if precio_litro ≤ 0 then .error .nonPositivePrice
      else if idle_minutes + moving_minutes = 0 then .error .zeroDuration
      else .ok (idle_minutes, moving_minutes)

/-- Inputs of one calculation run: parsed minutes, fuel and price, fleet
size, period length in days, hardware cost and monthly rent per unit, and
the two percentage sliders. -/
structure Params where
  idle_minutes : ℕ
  moving_minutes : ℕ
  combustible_total : ℚ
  precio_litro : ℚ
  num_unidades : ℕ
  duration_days : ℕ
  costo_por_pieza : ℚ
  renta_mensual : ℚ
  porcentaje_reduccion : ℕ
  porcentaje_ralenti_real : ℕ

def total_minutes (p : Params) : ℕ := p.idle_minutes + p.moving_minutes

def idle_percentage (p : Params) : ℚ :=
  ((p.idle_minutes : ℚ) / (total_minutes p : ℚ)) * 100

def moving_percentage (p : Params) : ℚ :=
  ((p.moving_minutes : ℚ) / (total_minutes p : ℚ)) * 100

def combustible_ralenti (p : Params) : ℚ :=
  (idle_percentage p / 100) * p.combustible_total

def combustible_movimiento (p : Params) : ℚ :=
  (moving_percentage p / 100) * p.combustible_total

def costo_ralenti (p : Params) : ℚ := combustible_ralenti p * p.precio_litro

def costo_movimiento (p : Params) : ℚ := combustible_movimiento p * p.precio_litro

def costo_total (p : Params) : ℚ := p.combustible_total * p.precio_litro

def merma_total (p : Params) : ℚ := costo_ralenti p * p.num_unidades

def merma_diaria (p : Params) : ℚ := merma_total p / p.duration_days

def merma_semanal (p : Params) : ℚ := merma_diaria p * 7

def merma_mensual (p : Params) : ℚ := merma_diaria p * 30

def merma_anual (p : Params) : ℚ := merma_diaria p * 365

def merma_total_unit (p : Params) : ℚ := costo_ralenti p

def merma_diaria_unit (p : Params) : ℚ := merma_total_unit p / p.duration_days

def merma_semanal_unit (p : Params) : ℚ := merma_diaria_unit p * 7

def merma_mensual_unit (p : Params) : ℚ := merma_diaria_unit p * 30

def merma_anual_unit (p : Params) : ℚ := merma_diaria_unit p * 365

def ahorro_anual (p : Params) : ℚ :=
  merma_anual p * ((p.porcentaje_reduccion : ℚ) / 100) * ((p.porcentaje_ralenti_real : ℚ) / 100)

def costo_total_barras (p : Params) : ℚ := p.costo_por_pieza * p.num_unidades

def ahorro_mensual (p : Params) : ℚ := ahorro_anual p / 12

def neto_mensual (p : Params) : ℚ := ahorro_mensual p - p.renta_mensual * p.num_unidades

/-- ROI in months: `costo_total_barras / neto_mensual` when the monthly net
benefit is positive; the source's `float('inf')` sentinel is modelled as
`none`. -/
def meses_para_recuperar (p : Params) : Option ℚ :=
  if 0 < neto_mensual p then some (costo_total_barras p / neto_mensual p) else none

/-- ROI in days: `costo_total_barras / (neto_mensual / 30)` when the monthly
net benefit is positive; the source's `float('inf')` sentinel is modelled as
`none`. -/
def roi_days (p : Params) : Option ℚ :=
  if 0 < neto_mensual p then some (costo_total_barras p / (neto_mensual p / 30)) else none

def neto_anual (p : Params) : ℚ := ahorro_anual p - p.renta_mensual * 12 * p.num_unidades

def costo_ralenti_real_unit (p : Params) : ℚ :=
  costo_ralenti p * ((p.porcentaje_ralenti_real : ℚ) / 100)

def merma_total_real_unit (p : Params) : ℚ := costo_ralenti_real_unit p

def merma_diaria_real_unit (p : Params) : ℚ := merma_total_real_unit p / p.duration_days

def merma_semanal_real_unit (p : Params) : ℚ := merma_diaria_real_unit p * 7

def merma_mensual_real_unit (p : Params) : ℚ := merma_diaria_real_unit p * 30

def merma_anual_real_unit (p : Params) : ℚ := merma_diaria_real_unit p * 365

def costo_ralenti_real_fleet (p : Params) : ℚ := costo_ralenti_real_unit p * p.num_unidades

def merma_total_real_fleet (p : Params) : ℚ := costo_ralenti_real_fleet p

def merma_diaria_real_fleet (p : Params) : ℚ := merma_total_real_fleet p / p.duration_days

def merma_semanal_real_fleet (p : Params) : ℚ := merma_diaria_real_fleet p * 7

def merma_mensual_real_fleet (p : Params) : ℚ := merma_diaria_real_fleet p * 30

def merma_anual_real_fleet (p : Params) : ℚ := merma_diaria_real_fleet p * 365

/-- Python's built-in `round` to the nearest integer with ties to even,
on an exact rational. -/
def pyRoundHE (x : ℚ) : ℤ :=
  let n := ⌊x⌋
  let f := x - n
  if f < 1 / 2 then n
  else if 1 / 2 < f then n + 1
  else if n % 2 = 0 then n else n + 1

/-- Python's `round(x, 2)` on an exact rational. -/
def round2 (q : ℚ) : ℚ := (pyRoundHE (q * 100) : ℚ) / 100

/-- One row of the 60-month evolution table: month index and the stored
(two-decimal rounded) cumulative savings, cumulative cost and cumulative
net gain. -/
structure EvolRow where
  mes : ℕ
  ahorroAc : ℚ
  costoAc : ℚ
  gananciaAc : ℚ
  deriving DecidableEq, Repr

/-- The simulator loop: starting at month `mes` with raw accumulated savings
`acc`, produce the next `n` rows. Each iteration adds the monthly savings to
the raw accumulator, recomputes the cumulative cost, and appends all three
figures rounded to two decimals. -/
def evolRows (ci cm am : ℚ) : ℕ → ℚ → ℕ → List EvolRow
  | _, _, 0 => []
  | mes, acc, Nat.succ n =>
    let acc2 := acc + am
    let costo := ci + cm * (mes : ℚ)
    let gan := acc2 - costo
    ⟨mes, round2 acc2, round2 costo, round2 gan⟩ :: evolRows ci cm am (mes + 1) acc2 n

/-- The 60-month evolution table built from initial cost `ci`, monthly cost
`cm` and monthly savings `am` (months 1 to 60, accumulator starting at 0). -/
def data_evolucion (ci cm am : ℚ) : List EvolRow := evolRows ci cm am 1 0 60

/-- The break-even month: minimum of the month column over the rows whose
stored (rounded) cumulative net gain is nonnegative; pandas' `min()` of an
empty selection (NaN, no break-even) is modelled as `⊤`. -/
def roi_mes (ci cm am : ℚ) : WithTop ℕ :=
  (((data_evolucion ci cm am).filter (fun r => decide (0 ≤ r.gananciaAc))).map EvolRow.mes).minimum

/-- Exact (unrounded) cumulative net gain of month `m`:
`am*m - (ci + cm*m)`. -/
def ganancia_acumulada (ci cm am : ℚ) (m : ℕ) : ℚ := am * m - (ci + cm * m)

/-- Closed form of the row the loop produces for offset `i`. -/
def evolRowAt (ci cm am : ℚ) (mes : ℕ) (acc : ℚ) (i : ℕ) : EvolRow :=
  { mes := mes + i
    ahorroAc := round2 (acc + am * ((i : ℚ) + 1))
    costoAc := round2 (ci + cm * ((mes + i : ℕ) : ℚ))
    gananciaAc := round2 (acc + am * ((i : ℚ) + 1) - (ci + cm * ((mes + i : ℕ) : ℚ))) }

/-- The row stored for absolute month `m` of the table that starts at month 1
with accumulator 0. -/
def rowAt (ci cm am : ℚ) (m : ℕ) : EvolRow :=
  { mes := m
    ahorroAc := round2 (am * m)
    costoAc := round2 (ci + cm * m)
    gananciaAc := round2 (ganancia_acumulada ci cm am m) }

/-! ### Parser lemmas -/

theorem expectChar_eq_some {c : Char} {l r : List Char} :
    expectChar c l = some r ↔ l = c :: r := by
  cases l with
  | nil => simp [expectChar]
  | cons x xs =>
    by_cases hx : x = c
    · subst hx
      simp [expectChar]
    · simp [expectChar, hx]

theorem expectChar_cons_self (c : Char) (l : List Char) :
    expectChar c (c :: l) = some l := by
  simp [expectChar]

theorem isPySpace_eq_false_of_isDigit {c : Char} (h : c.isDigit = true) :
    isPySpace c = false := by
  cases hb : isPySpace c with
  | false => rfl
  | true =>
    exfalso
    simp only [isPySpace, Bool.or_eq_true, beq_iff_eq] at hb
    rcases hb with ((((rfl | rfl) | rfl) | rfl) | rfl) | rfl <;> exact absurd h (by decide)

theorem takeDigits_append {ds : List Char} {c : Char} (rest : List Char)
    (hds : ∀ x ∈ ds, x.isDigit) (hc : ¬ c.isDigit = true) :
    takeDigits (ds ++ c :: rest) = (ds, c :: rest) := by
  induction ds with
  | nil => simp [takeDigits, hc]
  | cons a as ih =>
    have ha : a.isDigit := hds a (by simp)
    have ih' := ih (fun x hx => hds x (by simp [hx]))
    simp [takeDigits, ha, ih']

theorem digitsSplit_append {ds : List Char} {c : Char} (rest : List Char)
    (hne : ds ≠ []) (hds : ∀ x ∈ ds, x.isDigit) (hc : ¬ c.isDigit = true) :
    digitsSplit (ds ++ c :: rest) = some (digitsVal ds, c :: rest) := by
  cases ds with
  | nil => exact absurd rfl hne
  | cons a as =>
    unfold digitsSplit
    rw [takeDigits_append rest hds hc]

theorem dropWs_append {ws : List Char} {c : Char} (rest : List Char)
    (hws : ∀ x ∈ ws, isPySpace x) (hc : isPySpace c = false) :
    dropWs (ws ++ c :: rest) = c :: rest := by
  induction ws with
  | nil => simp [dropWs, hc]
  | cons a as ih =>
    have ha : isPySpace a := hws a (by simp)
    have ih' := ih (fun x hx => hws x (by simp [hx]))
    simp [dropWs, ha, ih']

theorem takeDigits_sound :
    ∀ l : List Char, (takeDigits l).1 ++ (takeDigits l).2 = l ∧
      ∀ c ∈ (takeDigits l).1, c.isDigit := by
  intro l
  induction l with
  | nil => simp [takeDigits]
  | cons a as ih =>
    by_cases ha : a.isDigit
    · simp only [takeDigits, ha, if_pos]
      refine ⟨by simpa using ih.1, ?_⟩
      intro c hc
      rcases List.mem_cons.mp hc with rfl | hc
      · exact ha
      · exact ih.2 c hc
    · simp [takeDigits, ha]

theorem digitsSplit_sound {l rest : List Char} {v : ℕ}
    (h : digitsSplit l = some (v, rest)) :
    ∃ ds : List Char, ds ≠ [] ∧ (∀ c ∈ ds, c.isDigit) ∧
      l = ds ++ rest ∧ v = digitsVal ds := by
  unfold digitsSplit at h
  rcases htd : takeDigits l with ⟨ds, r⟩
  rw [htd] at h
  cases ds with
  | nil => exact absurd h (by simp)
  | cons a as =>
    simp only [Option.some.injEq, Prod.mk.injEq] at h
    obtain ⟨hv, hr⟩ := h
    have hsound := takeDigits_sound l
    rw [htd] at hsound
    exact ⟨a :: as, by simp, hsound.2, by rw [← hsound.1, hr], hv.symm⟩

theorem dropWs_sound (l : List Char) :
    ∃ ws : List Char, (∀ c ∈ ws, isPySpace c) ∧ l = ws ++ dropWs l := by
  induction l with
  | nil => exact ⟨[], by simp, by simp [dropWs]⟩
  | cons a as ih =>
    by_cases ha : isPySpace a
    · obtain ⟨ws, hws, hlws⟩ := ih
      refine ⟨a :: ws, ?_, ?_⟩
      · intro c hc
        rcases List.mem_cons.mp hc with rfl | hc
        · exact ha
        · exact hws c hc
      · simp only [dropWs, ha, if_pos, List.cons_append]
        exact congrArg (a :: ·) hlws
    · refine ⟨[], by simp, ?_⟩
      simp [dropWs, ha]

theorem matchTriple_complete (d1 w1 d2 w2 d3 rest : List Char)
    (h1 : IsDigitList d1) (hw1 : IsWsList w1) (h2 : IsDigitList d2)
    (hw2 : IsWsList w2) (h3 : IsDigitList d3) :
    matchTriple (durationChars d1 w1 d2 w2 d3 rest) =
      some (digitsVal d1, digitsVal d2, digitsVal d3) := by
  obtain ⟨h1ne, h1d⟩ := h1
  obtain ⟨h2ne, h2d⟩ := h2
  obtain ⟨h3ne, h3d⟩ := h3
  obtain ⟨a2, t2, rfl⟩ : ∃ a t, d2 = a :: t := by
    cases d2 with
    | nil => exact absurd rfl h2ne
    | cons a t => exact ⟨a, t, rfl⟩
  obtain ⟨a3, t3, rfl⟩ : ∃ a t, d3 = a :: t := by
    cases d3 with
    | nil => exact absurd rfl h3ne
    | cons a t => exact ⟨a, t, rfl⟩
  have ha2 : a2.isDigit := h2d a2 (by simp)
  have ha3 : a3.isDigit := h3d a3 (by simp)
  unfold durationChars matchTriple
  rw [expectChar_cons_self]
  simp only [bind, Option.some_bind]
  rw [digitsSplit_append (',' :: (w1 ++ ((a2 :: t2) ++ 'H' :: ',' :: (w2 ++ ((a3 :: t3) ++ 'M' :: ')' :: rest))))) h1ne h1d (by decide)]
  simp only [bind, Option.some_bind]
  rw [expectChar_cons_self]
  simp only [bind, Option.some_bind]
  rw [expectChar_cons_self]
  simp only [bind, Option.some_bind]
  rw [show w1 ++ ((a2 :: t2) ++ 'H' :: ',' :: (w2 ++ ((a3 :: t3) ++ 'M' :: ')' :: rest))) =
        w1 ++ a2 :: (t2 ++ 'H' :: ',' :: (w2 ++ ((a3 :: t3) ++ 'M' :: ')' :: rest))) by simp]
  rw [dropWs_append _ hw1 (isPySpace_eq_false_of_isDigit ha2)]
  rw [show a2 :: (t2 ++ 'H' :: ',' :: (w2 ++ ((a3 :: t3) ++ 'M' :: ')' :: rest))) =
        (a2 :: t2) ++ 'H' :: ',' :: (w2 ++ ((a3 :: t3) ++ 'M' :: ')' :: rest)) by simp]
  rw [digitsSplit_append (',' :: (w2 ++ ((a3 :: t3) ++ 'M' :: ')' :: rest))) h2ne h2d (by decide)]
  simp only [bind, Option.some_bind]
  rw [expectChar_cons_self]
  simp only [bind, Option.some_bind]
  rw [expectChar_cons_self]
  simp only [bind, Option.some_bind]
  rw [show w2 ++ ((a3 :: t3) ++ 'M' :: ')' :: rest) = w2 ++ a3 :: (t3 ++ 'M' :: ')' :: rest) by simp]
  rw [dropWs_append _ hw2 (isPySpace_eq_false_of_isDigit ha3)]
  rw [show a3 :: (t3 ++ 'M' :: ')' :: rest) = (a3 :: t3) ++ 'M' :: ')' :: rest by simp]
  rw [digitsSplit_append (')' :: rest) h3ne h3d (by decide)]
  simp only [bind, Option.some_bind]
  rw [expectChar_cons_self]
  simp only [bind, Option.some_bind]
  rw [expectChar_cons_self]
  simp only [bind, Option.some_bind]
  rfl

theorem matchTriple_sound {l : List Char} {r : ℕ × ℕ × ℕ}
    (hm : matchTriple l = some r) : MatchesAt l := by
  unfold matchTriple at hm
  simp only [bind, Option.bind_eq_some, pure, Option.some.injEq] at hm
  obtain ⟨r1, he1, hm⟩ := hm
  obtain ⟨⟨d, r2⟩, hd1, hm⟩ := hm
  obtain ⟨r3, he2, hm⟩ := hm
  obtain ⟨r4, he3, hm⟩ := hm
  obtain ⟨⟨h, r5⟩, hd2, hm⟩ := hm
  obtain ⟨r6, he4, hm⟩ := hm
  obtain ⟨r7, he5, hm⟩ := hm
  obtain ⟨⟨m, r8⟩, hd3, hm⟩ := hm
  obtain ⟨r9, he6, hm⟩ := hm
  obtain ⟨r10, he7, _⟩ := hm
  rw [expectChar_eq_some] at he1 he2 he3 he4 he5 he6 he7
  replace he2 : r2 = 'D' :: r3 := he2
  replace he4 : r5 = 'H' :: r6 := he4
  replace he6 : r8 = 'M' :: r9 := he6
  obtain ⟨ds1, hne1, hdig1, hsp1, _⟩ := digitsSplit_sound hd1
  obtain ⟨ds2, hne2, hdig2, hsp2, _⟩ := digitsSplit_sound hd2
  obtain ⟨ds3, hne3, hdig3, hsp3, _⟩ := digitsSplit_sound hd3
  obtain ⟨ws1, hws1, hw1⟩ := dropWs_sound r4
  obtain ⟨ws2, hws2, hw2⟩ := dropWs_sound r7
  refine ⟨ds1, ws1, ds2, ws2, ds3, r10, ⟨hne1, hdig1⟩, hws1, ⟨hne2, hdig2⟩,
    hws2, ⟨hne3, hdig3⟩, ?_⟩
  unfold durationChars
  rw [he1, hsp1, he2, he3, hw1, hsp2, he4, he5, hw2, hsp3, he6, he7]

theorem searchTriple_sound {l : List Char} {r : ℕ × ℕ × ℕ}
    (hs : searchTriple l = some r) : ∃ i, MatchesAt (l.drop i) := by
  induction l with
  | nil =>
    exact absurd hs (by simp [searchTriple, matchTriple, expectChar, bind])
  | cons c cs ih =>
    unfold searchTriple at hs
    rcases hmc : matchTriple (c :: cs) with _ | r'
    · rw [hmc] at hs
      obtain ⟨i, hi⟩ := ih hs
      exact ⟨i + 1, by simpa using hi⟩
    · rw [hmc] at hs
      exact ⟨0, by simpa using matchTriple_sound hmc⟩

/-! ### Rounding and simulator lemmas -/

theorem round2_intCast (n : ℤ) : round2 (n : ℚ) = n := by
  unfold round2 pyRoundHE
  have h : ((n : ℚ)) * 100 = ((n * 100 : ℤ) : ℚ) := by push_cast; ring
  rw [h, Int.floor_intCast]
  norm_num

theorem evolRowAt_shift (ci cm am : ℚ) (mes : ℕ) (acc : ℚ) (i : ℕ) :
    evolRowAt ci cm am (mes + 1) (acc + am) i = evolRowAt ci cm am mes acc (i + 1) := by
  unfold evolRowAt
  have hmes : mes + 1 + i = mes + (i + 1) := by omega
  rw [hmes]
  have hsav : acc + am + am * ((i : ℚ) + 1) = acc + am * (((i + 1 : ℕ) : ℚ) + 1) := by
    push_cast
    ring
  rw [hsav]

theorem evolRowAt_zero (ci cm am : ℚ) (mes : ℕ) (acc : ℚ) :
    evolRowAt ci cm am mes acc 0 =
      ⟨mes, round2 (acc + am), round2 (ci + cm * (mes : ℚ)),
        round2 (acc + am - (ci + cm * (mes : ℚ)))⟩ := by
  unfold evolRowAt
  norm_num

theorem evolRows_eq_map (ci cm am : ℚ) :
    ∀ (n : ℕ) (mes : ℕ) (acc : ℚ),
      evolRows ci cm am mes acc n = (List.range n).map (evolRowAt ci cm am mes acc) := by
  intro n
  induction n with
  | zero =>
    intro mes acc
    simp [evolRows]
  | succ n ih =>
    intro mes acc
    have htail := ih (mes + 1) (acc + am)
    have hmap : (List.range n).map (evolRowAt ci cm am (mes + 1) (acc + am)) =
        (List.range n).map (fun i => evolRowAt ci cm am mes acc (i + 1)) :=
      List.map_congr_left (fun i _ => evolRowAt_shift ci cm am mes acc i)
    show (⟨mes, round2 (acc + am), round2 (ci + cm * (mes : ℚ)),
        round2 (acc + am - (ci + cm * (mes : ℚ)))⟩ : EvolRow) ::
        evolRows ci cm am (mes + 1) (acc + am) n =
        (List.range (n + 1)).map (evolRowAt ci cm am mes acc)
    rw [htail, hmap, List.range_succ_eq_map, List.map_cons, List.map_map]
    congr 1
    exact (evolRowAt_zero ci cm am mes acc).symm

theorem evolRowAt_one_zero (ci cm am : ℚ) (i : ℕ) :
    evolRowAt ci cm am 1 0 i = rowAt ci cm am (i + 1) := by
  unfold evolRowAt rowAt ganancia_acumulada
  have h1 : (1 : ℕ) + i = i + 1 := by omega
  rw [h1]
  have h2 : (0 : ℚ) + am * ((i : ℚ) + 1) = am * ((i + 1 : ℕ) : ℚ) := by
    push_cast
    ring
  rw [h2]

theorem data_evolucion_eq (ci cm am : ℚ) :
    data_evolucion ci cm am = (List.range 60).map (fun i => rowAt ci cm am (i + 1)) := by
  unfold data_evolucion
  rw [evolRows_eq_map]
  exact List.map_congr_left (fun i _ => evolRowAt_one_zero ci cm am i)

theorem mem_data_evolucion {ci cm am : ℚ} {r : EvolRow} :
    r ∈ data_evolucion ci cm am ↔ ∃ m, 1 ≤ m ∧ m ≤ 60 ∧ r = rowAt ci cm am m := by
  rw [data_evolucion_eq]
  simp only [List.mem_map, List.mem_range]
  constructor
  · rintro ⟨i, hi, rfl⟩
    exact ⟨i + 1, by omega, by omega, rfl⟩
  · rintro ⟨m, hm1, hm60, rfl⟩
    refine ⟨m - 1, by omega, ?_⟩
    rw [Nat.sub_add_cancel hm1]

theorem mem_roiList {ci cm am : ℚ} {x : ℕ} :
    x ∈ ((data_evolucion ci cm am).filter (fun r => decide (0 ≤ r.gananciaAc))).map EvolRow.mes ↔
      1 ≤ x ∧ x ≤ 60 ∧ 0 ≤ round2 (ganancia_acumulada ci cm am x) := by
  simp only [List.mem_map, List.mem_filter, mem_data_evolucion, decide_eq_true_eq]
  constructor
  · rintro ⟨r, ⟨⟨mm, h1, h2, rfl⟩, hg⟩, hmes⟩
    replace hmes : mm = x := hmes
    subst hmes
    replace hg : 0 ≤ round2 (ganancia_acumulada ci cm am mm) := hg
    exact ⟨h1, h2, hg⟩
  · rintro ⟨h1, h2, hg⟩
    exact ⟨rowAt ci cm am x, ⟨⟨x, h1, h2, rfl⟩, hg⟩, rfl⟩

theorem roi_mes_eq_coe_iff {ci cm am : ℚ} {m : ℕ} :
    roi_mes ci cm am = WithTop.some m ↔
      (1 ≤ m ∧ m ≤ 60 ∧ 0 ≤ round2 (ganancia_acumulada ci cm am m)) ∧
      ∀ k, 1 ≤ k → k ≤ 60 → 0 ≤ round2 (ganancia_acumulada ci cm am k) → m ≤ k := by
  unfold roi_mes
  rw [List.minimum_eq_coe_iff]
  constructor
  · rintro ⟨hmem, hmin⟩
    refine ⟨mem_roiList.mp hmem, ?_⟩
    intro k hk1 hk60 hkg
    exact hmin k (mem_roiList.mpr ⟨hk1, hk60, hkg⟩)
  · rintro ⟨hm, hmin⟩
    refine ⟨mem_roiList.mpr hm, ?_⟩
    intro k hk
    obtain ⟨hk1, hk60, hkg⟩ := mem_roiList.mp hk
    exact hmin k hk1 hk60 hkg

theorem roi_mes_eq_top_iff {ci cm am : ℚ} :
    roi_mes ci cm am = ⊤ ↔
      ∀ k, 1 ≤ k → k ≤ 60 → ¬ 0 ≤ round2 (ganancia_acumulada ci cm am k) := by
  unfold roi_mes
  rw [List.minimum_eq_top, List.map_eq_nil_iff, List.filter_eq_nil_iff]
  constructor
  · intro h k hk1 hk60 hkg
    exact h (rowAt ci cm am k) (mem_data_evolucion.mpr ⟨k, hk1, hk60, rfl⟩)
      (by simpa using hkg)
  · intro h r hr
    obtain ⟨m, hm1, hm60, rfl⟩ := mem_data_evolucion.mp hr
    simpa using h m hm1 hm60

/-! ### Engine and glue lemmas -/

theorem searchTriple_eq_of_match {l : List Char} {r : ℕ × ℕ × ℕ}
    (h : matchTriple l = some r) : searchTriple l = some r := by
  cases l with
  | nil => simp [searchTriple, h]
  | cons c cs => simp [searchTriple, h]

theorem idle_add_moving_pct (p : Params) (h : total_minutes p ≠ 0) :
    idle_percentage p + moving_percentage p = 100 := by
  have ht : ((total_minutes p : ℚ)) ≠ 0 := Nat.cast_ne_zero.mpr h
  have key : ((p.idle_minutes : ℚ) + (p.moving_minutes : ℚ)) = (total_minutes p : ℚ) := by
    unfold total_minutes
    push_cast
    ring
  unfold idle_percentage moving_percentage
  field_simp
  linear_combination 100 * key

theorem round2_gain_scenario1 (m : ℕ) :
    round2 (ganancia_acumulada 2400 200 1000 m) = 800 * (m : ℚ) - 2400 := by
  unfold ganancia_acumulada
  have h : (1000 : ℚ) * m - (2400 + 200 * m) = ((800 * m - 2400 : ℤ) : ℚ) := by
    push_cast
    ring
  rw [h, round2_intCast]
  push_cast
  ring

theorem round2_gain_scenario2 (m : ℕ) :
    round2 (ganancia_acumulada 10000 500 0 m) = -(10000 + 500 * (m : ℚ)) := by
  unfold ganancia_acumulada
  have h : (0 : ℚ) * m - (10000 + 500 * m) = ((-(10000 + 500 * m) : ℤ) : ℚ) := by
    push_cast
    ring
  rw [h, round2_intCast]
  push_cast
  ring

theorem round2_cex_gain : round2 (ganancia_acumulada (1/250) 0 0 1) = 0 := by
  have hg : ganancia_acumulada (1/250) 0 0 1 = -(1/250) := by
    unfold ganancia_acumulada
    norm_num
  rw [hg]
  unfold round2 pyRoundHE
  norm_num

/-! ### Claim theorems -/

/-- Claim C1: for every input with positive total minutes, the computed idle
and moving percentages sum to exactly 100, and the moving percentage equals
the complement `100 - idle_percentage` (in the exact-arithmetic model the
directly recomputed value coincides with the complement). -/
theorem pct_sum_complement (p : Params) (h : total_minutes p ≠ 0) :
    idle_percentage p + moving_percentage p = 100 ∧
      moving_percentage p = 100 - idle_percentage p := by
  have hsum := idle_add_moving_pct p h
  exact ⟨hsum, by linarith⟩

/-- Witness for C1 at a concrete input. -/
theorem pct_sum_complement_witness :
    idle_percentage ⟨2768, 2372, 1419, 25, 30, 1, 0, 999, 20, 100⟩ +
      moving_percentage ⟨2768, 2372, 1419, 25, 30, 1, 0, 999, 20, 100⟩ = 100 :=
  (pct_sum_complement ⟨2768, 2372, 1419, 25, 30, 1, 0, 999, 20, 100⟩ (by decide)).1

/-- Claim C2: for every valid input (nonzero total minutes), idle fuel plus
moving fuel equals the total fuel exactly. -/
theorem fuel_split_conservation (p : Params) (h : total_minutes p ≠ 0) :
    combustible_ralenti p + combustible_movimiento p = p.combustible_total := by
  have h100 := idle_add_moving_pct p h
  unfold combustible_ralenti combustible_movimiento
  calc (idle_percentage p / 100) * p.combustible_total +
        (moving_percentage p / 100) * p.combustible_total
      = ((idle_percentage p + moving_percentage p) / 100) * p.combustible_total := by ring
    _ = p.combustible_total := by rw [h100]; norm_num

/-- Witness for C2 at a concrete input. -/
theorem fuel_split_conservation_witness :
    combustible_ralenti ⟨2768, 2372, 1419, 25, 30, 1, 0, 999, 20, 100⟩ +
      combustible_movimiento ⟨2768, 2372, 1419, 25, 30, 1, 0, 999, 20, 100⟩ = 1419 :=
  fuel_split_conservation ⟨2768, 2372, 1419, 25, 30, 1, 0, 999, 20, 100⟩ (by decide)

/-- Claim C5: when the monthly net benefit is positive, payback months and
days are the stated quotients; when it is nonpositive, both are the
not-recoverable sentinel (`none`, the model of `float('inf')`) and never a
finite value. -/
theorem payback_sentinel (p : Params) :
    (0 < neto_mensual p →
        meses_para_recuperar p = some (costo_total_barras p / neto_mensual p) ∧
        roi_days p = some (costo_total_barras p / (neto_mensual p / 30))) ∧
    (neto_mensual p ≤ 0 →
        meses_para_recuperar p = none ∧ roi_days p = none) := by
  constructor
  · intro h
    constructor
    · unfold meses_para_recuperar
      rw [if_pos h]
    · unfold roi_days
      rw [if_pos h]
  · intro h
    constructor
    · unfold meses_para_recuperar
      rw [if_neg (not_lt.mpr h)]
    · unfold roi_days
      rw [if_neg (not_lt.mpr h)]

/-- Witness for C5 at a concrete input with nonpositive net benefit. -/
theorem payback_sentinel_witness :
    meses_para_recuperar ⟨0, 10, 1, 1, 1, 1, 5, 3, 0, 100⟩ = none ∧
      roi_days ⟨0, 10, 1, 1, 1, 1, 5, 3, 0, 100⟩ = none :=
  (payback_sentinel ⟨0, 10, 1, 1, 1, 1, 5, 3, 0, 100⟩).2 (by
    norm_num [neto_mensual, ahorro_mensual, ahorro_anual, merma_anual, merma_diaria,
      merma_total, costo_ralenti, combustible_ralenti, idle_percentage, total_minutes])

/-- Claim C7: every fleet-scale loss figure (total, daily, weekly, monthly,
annual; plain and real-idle-adjusted) equals the corresponding per-unit
figure multiplied by the unit count, exactly. -/
theorem fleet_unit_scaling (p : Params) :
    merma_total p = merma_total_unit p * p.num_unidades ∧
    merma_diaria p = merma_diaria_unit p * p.num_unidades ∧
    merma_semanal p = merma_semanal_unit p * p.num_unidades ∧
    merma_mensual p = merma_mensual_unit p * p.num_unidades ∧
    merma_anual p = merma_anual_unit p * p.num_unidades ∧
    costo_ralenti_real_fleet p = costo_ralenti_real_unit p * p.num_unidades ∧
    merma_diaria_real_fleet p = merma_diaria_real_unit p * p.num_unidades ∧
    merma_semanal_real_fleet p = merma_semanal_real_unit p * p.num_unidades ∧
    merma_mensual_real_fleet p = merma_mensual_real_unit p * p.num_unidades ∧
    merma_anual_real_fleet p = merma_anual_real_unit p * p.num_unidades := by
  simp only [merma_total, merma_diaria, merma_semanal, merma_mensual, merma_anual,
    merma_total_unit, merma_diaria_unit, merma_semanal_unit, merma_mensual_unit,
    merma_anual_unit, costo_ralenti_real_fleet, merma_diaria_real_fleet,
    merma_semanal_real_fleet, merma_mensual_real_fleet, merma_anual_real_fleet,
    merma_total_real_fleet, merma_diaria_real_unit, merma_semanal_real_unit,
    merma_mensual_real_unit, merma_anual_real_unit, merma_total_real_unit]
  refine ⟨trivial, by ring, by ring, by ring, by ring, trivial, by ring, by ring, by ring, by ring⟩

/-- Claim C8: with all other parameters fixed and valid (nonnegative fuel
and price), a larger idle-reduction percentage never yields a smaller
annual savings. -/
theorem ahorro_monotone (p : Params) (r1 r2 : ℕ)
    (hfuel : 0 ≤ p.combustible_total) (hprice : 0 ≤ p.precio_litro) (hr : r1 ≤ r2) :
    ahorro_anual { p with porcentaje_reduccion := r1 } ≤
      ahorro_anual { p with porcentaje_reduccion := r2 } := by
  have h0 : 0 ≤ idle_percentage p := by
    unfold idle_percentage
    positivity
  have h1 : 0 ≤ combustible_ralenti p := by
    unfold combustible_ralenti
    exact mul_nonneg (by positivity) hfuel
  have h2 : 0 ≤ costo_ralenti p := mul_nonneg h1 hprice
  have h3 : 0 ≤ merma_total p := mul_nonneg h2 (Nat.cast_nonneg _)
  have h4 : 0 ≤ merma_diaria p := div_nonneg h3 (Nat.cast_nonneg _)
  have h5 : 0 ≤ merma_anual p := mul_nonneg h4 (by norm_num)
  have hA1 : ahorro_anual { p with porcentaje_reduccion := r1 } =
      merma_anual p * ((r1 : ℚ) / 100) * ((p.porcentaje_ralenti_real : ℚ) / 100) := rfl
  have hA2 : ahorro_anual { p with porcentaje_reduccion := r2 } =
      merma_anual p * ((r2 : ℚ) / 100) * ((p.porcentaje_ralenti_real : ℚ) / 100) := rfl
  rw [hA1, hA2]
  have hq : ((r1 : ℚ) / 100) ≤ ((r2 : ℚ) / 100) :=
    (div_le_div_iff_of_pos_right (by norm_num)).mpr (by exact_mod_cast hr)
  apply mul_le_mul_of_nonneg_right _ (by positivity)
  exact mul_le_mul_of_nonneg_left hq h5

/-- Witness for C8 at a concrete input. -/
theorem ahorro_monotone_witness :
    ahorro_anual ⟨2768, 2372, 1419, 25, 30, 1, 0, 999, 0, 100⟩ ≤
      ahorro_anual ⟨2768, 2372, 1419, 25, 30, 1, 0, 999, 100, 100⟩ :=
  ahorro_monotone ⟨2768, 2372, 1419, 25, 30, 1, 0, 999, 20, 100⟩ 0 100
    (by norm_num) (by norm_num) (by norm_num)

/-- Claim C9: the validation chain reports exactly one error following the
fixed check order (idle parse, moving parse, fuel, price, zero total); in
particular an input whose times parse to zero total minutes and whose fuel
is nonpositive reports the nonpositive-fuel error, not the zero-duration
error. -/
theorem validation_order (it mt : String) (f pr : ℚ) :
    (parse_time_string it = none → validate it mt f pr = .error .malformedIdle) ∧
    (∀ im, parse_time_string it = some im → parse_time_string mt = none →
      validate it mt f pr = .error .malformedMoving) ∧
    (∀ im mm, parse_time_string it = some im → parse_time_string mt = some mm →
      f ≤ 0 → validate it mt f pr = .error .nonPositiveFuel) ∧
    (∀ im mm, parse_time_string it = some im → parse_time_string mt = some mm →
      0 < f → pr ≤ 0 → validate it mt f pr = .error .nonPositivePrice) ∧
    (∀ im mm, parse_time_string it = some im → parse_time_string mt = some mm →
      0 < f → 0 < pr → im + mm = 0 → validate it mt f pr = .error .zeroDuration) ∧
    (∀ im mm, parse_time_string it = some im → parse_time_string mt = some mm →
      0 < f → 0 < pr → im + mm ≠ 0 → validate it mt f pr = .ok (im, mm)) := by
  refine ⟨?_, ?_, ?_, ?_, ?_, ?_⟩
  · intro h
    simp [validate, h]
  · intro im h1 h2
    simp [validate, h1, h2]
  · intro im mm h1 h2 hf
    simp [validate, h1, h2, hf]
  · intro im mm h1 h2 hf hp
    simp [validate, h1, h2, not_le.mpr hf, hp]
  · intro im mm h1 h2 hf hp hz
    simp [validate, h1, h2, not_le.mpr hf, not_le.mpr hp, hz]
  · intro im mm h1 h2 hf hp hz
    simp [validate, h1, h2, not_le.mpr hf, not_le.mpr hp, hz]

/-- Witness for C9: both times parse to zero minutes and the fuel is zero;
the reported error is the nonpositive-fuel one. -/
theorem validation_order_witness :
    validate ("(0D, 0H, 0M)") ("(0D, 0H, 0M)") 0 25 = .error .nonPositiveFuel :=
  (validation_order ("(0D, 0H, 0M)") ("(0D, 0H, 0M)") 0 25).2.2.1 0 0
    (by decide) (by decide) le_rfl

/-- Claim C3 counterexample: the moving duration string of the scenario,
`(1D, 15H, 32M)`, parses to 2372 minutes, not the 2252 minutes the claim
states. -/
theorem scenario_moving_minutes_cex :
    parse_time_string ("(1D, 15H, 32M)") = some 2372 ∧
      parse_time_string ("(1D, 15H, 32M)") ≠ some 2252 := by
  refine ⟨by decide, by decide⟩

/-- Claim C3 (amended): the idle string parses to 2768 minutes, the moving
string to 2372 minutes, the total is 5140 minutes, the idle percentage is
approximately 53.85, and with 1419 L of fuel at price 25 the idle fuel is
approximately 764.16 L and the idle cost approximately 19104.05. -/
theorem scenario_corrected :
    parse_time_string ("(1D, 22H, 8M)") = some 2768 ∧
    parse_time_string ("(1D, 15H, 32M)") = some 2372 ∧
    total_minutes ⟨2768, 2372, 1419, 25, 30, 1, 0, 999, 20, 100⟩ = 5140 ∧
    |idle_percentage ⟨2768, 2372, 1419, 25, 30, 1, 0, 999, 20, 100⟩ - 53.85| < 1 / 200 ∧
    |combustible_ralenti ⟨2768, 2372, 1419, 25, 30, 1, 0, 999, 20, 100⟩ - 764.16| < 1 / 200 ∧
    |costo_ralenti ⟨2768, 2372, 1419, 25, 30, 1, 0, 999, 20, 100⟩ - 19104.05| < 1 / 200 := by
  refine ⟨by decide, by decide, by decide, ?_, ?_, ?_⟩
  · rw [abs_lt]
    constructor <;>
      norm_num [idle_percentage, total_minutes]
  · rw [abs_lt]
    constructor <;>
      norm_num [combustible_ralenti, idle_percentage, total_minutes]
  · rw [abs_lt]
    constructor <;>
      norm_num [costo_ralenti, combustible_ralenti, idle_percentage, total_minutes]

/-- Claim C4: every duration string built from the pattern
`(<digits>D,<ws><digits>H,<ws><digits>M)` parses to
`days*1440 + hours*60 + minutes`, with no bound on component magnitudes;
every string in which the pattern occurs nowhere parses to `none`
(the malformed-duration failure), never to a zero value. -/
theorem duration_parse_spec :
    (∀ d1 w1 d2 w2 d3 rest : List Char,
        IsDigitList d1 → IsWsList w1 → IsDigitList d2 → IsWsList w2 → IsDigitList d3 →
        parse_time_string (String.mk (durationChars d1 w1 d2 w2 d3 rest)) =
          some (digitsVal d1 * 1440 + digitsVal d2 * 60 + digitsVal d3)) ∧
    (∀ s : String, ¬ ContainsDuration s → parse_time_string s = none) := by
  constructor
  · intro d1 w1 d2 w2 d3 rest h1 hw1 h2 hw2 h3
    unfold parse_time_string
    have hdata : (String.mk (durationChars d1 w1 d2 w2 d3 rest)).data =
        durationChars d1 w1 d2 w2 d3 rest := rfl
    rw [hdata,
      searchTriple_eq_of_match (matchTriple_complete d1 w1 d2 w2 d3 rest h1 hw1 h2 hw2 h3)]
    exact congrArg some (by ring)
  · intro s hnc
    cases hp : parse_time_string s with
    | none => rfl
    | some v =>
      exfalso
      unfold parse_time_string at hp
      rcases hs : searchTriple s.data with _ | r
      · rw [hs] at hp
        exact Option.noConfusion hp
      · obtain ⟨i, hi⟩ := searchTriple_sound hs
        exact hnc ⟨i, hi⟩

/-- Witness for C4: a concrete pattern instance parses to its minute count,
and a concrete patternless string parses to `none`. -/
theorem duration_parse_spec_witness :
    parse_time_string (String.mk (durationChars (['1']) ([' ']) (['2']) ([' ']) (['3']) ([]))) =
      some (digitsVal (['1']) * 1440 + digitsVal (['2']) * 60 + digitsVal (['3'])) ∧
    parse_time_string ("") = none := by
  constructor
  · exact duration_parse_spec.1 (['1']) ([' ']) (['2']) ([' ']) (['3']) ([])
      ⟨by decide, by decide⟩ (by unfold IsWsList; decide) ⟨by decide, by decide⟩
      (by unfold IsWsList; decide) ⟨by decide, by decide⟩
  · apply duration_parse_spec.2
    rintro ⟨i, d1, w1, d2, w2, d3, rest, _, _, _, _, _, heq⟩
    have hdata : ("" : String).data = [] := rfl
    rw [hdata, List.drop_nil] at heq
    unfold durationChars at heq
    exact List.noConfusion heq

/-- Claim C6 counterexample: with initial cost 1/250 (0.004), monthly cost 0
and monthly savings 0, every exact cumulative net gain is negative, yet the
simulator reports month 1 as break-even — the exact-valued series/break-even
description fails because the stored values are rounded to two decimals. -/
theorem simulator_exact_series_cex :
    roi_mes (1 / 250) 0 0 = WithTop.some 1 ∧
      ganancia_acumulada (1 / 250) 0 0 1 < 0 := by
  have hg : ganancia_acumulada (1 / 250) 0 0 1 = -(1 / 250) := by
    unfold ganancia_acumulada
    norm_num
  constructor
  · refine roi_mes_eq_coe_iff.mpr ⟨⟨le_refl 1, by norm_num, ?_⟩, fun k hk _ _ => hk⟩
    rw [round2_cex_gain]
  · rw [hg]
    norm_num

/-- Claim C6 (amended): each stored row of the 60-month series holds the
two-decimal rounding of the running savings sum, of the cumulative cost
`initial + monthly*m`, and of their exact difference; the break-even month
is the smallest month whose rounded cumulative net gain is nonnegative, and
is absent (`⊤`) when no such month exists; with savings 1000, monthly cost
200 and initial cost 2400 the break-even month is 3 (stored net gains
-1600, -800, 0), and with savings 0, monthly cost 500 and initial cost
10000 the stored net gain strictly decreases every month and break-even is
absent. -/
theorem simulator_rounded_series :
    (∀ ci cm am : ℚ,
        data_evolucion ci cm am = (List.range 60).map (fun i => rowAt ci cm am (i + 1))) ∧
    (∀ ci cm am : ℚ, ∀ m : ℕ,
        roi_mes ci cm am = WithTop.some m ↔
          (1 ≤ m ∧ m ≤ 60 ∧ 0 ≤ round2 (ganancia_acumulada ci cm am m)) ∧
          ∀ k, 1 ≤ k → k ≤ 60 → 0 ≤ round2 (ganancia_acumulada ci cm am k) → m ≤ k) ∧
    (roi_mes 2400 200 1000 = WithTop.some 3 ∧
      round2 (ganancia_acumulada 2400 200 1000 1) = -1600 ∧
      round2 (ganancia_acumulada 2400 200 1000 2) = -800 ∧
      round2 (ganancia_acumulada 2400 200 1000 3) = 0) ∧
    (roi_mes 10000 500 0 = ⊤ ∧
      ∀ m, 1 ≤ m → m < 60 →
        round2 (ganancia_acumulada 10000 500 0 (m + 1)) <
          round2 (ganancia_acumulada 10000 500 0 m)) := by
  refine ⟨fun ci cm am => data_evolucion_eq ci cm am,
    fun ci cm am m => roi_mes_eq_coe_iff, ⟨?_, ?_, ?_, ?_⟩, ?_, ?_⟩
  · refine roi_mes_eq_coe_iff.mpr ⟨⟨by norm_num, by norm_num, ?_⟩, ?_⟩
    · rw [round2_gain_scenario1]
      norm_num
    · intro k hk1 hk60 hkg
      by_contra hlt
      push_neg at hlt
      interval_cases k <;> rw [round2_gain_scenario1] at hkg <;> norm_num at hkg
  · rw [round2_gain_scenario1]
    norm_num
  · rw [round2_gain_scenario1]
    norm_num
  · rw [round2_gain_scenario1]
    norm_num
  · refine roi_mes_eq_top_iff.mpr ?_
    intro k hk1 hk60
    rw [round2_gain_scenario2]
    intro hcontra
    have hk : (0 : ℚ) ≤ (k : ℚ) := Nat.cast_nonneg k
    nlinarith
  · intro m hm1 hm60
    rw [round2_gain_scenario2, round2_gain_scenario2]
    push_cast
    linarith

/-- Witness for C6 at a concrete month of the strictly decreasing
scenario. -/
theorem simulator_rounded_series_witness :
    round2 (ganancia_acumulada 10000 500 0 2) < round2 (ganancia_acumulada 10000 500 0 1) :=
  simulator_rounded_series.2.2.2.2 1 (le_refl 1) (by norm_num)

/-- Claim C10: the break-even month is the smallest month whose cumulative
net gain rounded to two decimals is nonnegative, so an input whose exact
month-1 net gain is strictly negative but within half a cent of zero
(here -0.004 ∈ [-0.005, 0)) is reported as break-even at month 1. -/
theorem breakeven_rounded :
    (∀ ci cm am : ℚ, ∀ m : ℕ,
        roi_mes ci cm am = WithTop.some m ↔
          (1 ≤ m ∧ m ≤ 60 ∧ 0 ≤ round2 (ganancia_acumulada ci cm am m)) ∧
          ∀ k, 1 ≤ k → k ≤ 60 → 0 ≤ round2 (ganancia_acumulada ci cm am k) → m ≤ k) ∧
    (roi_mes (1 / 250) 0 0 = WithTop.some 1 ∧
      ganancia_acumulada (1 / 250) 0 0 1 < 0 ∧
      -(1 / 200) ≤ ganancia_acumulada (1 / 250) 0 0 1) := by
  have hg : ganancia_acumulada (1 / 250) 0 0 1 = -(1 / 250) := by
    unfold ganancia_acumulada
    norm_num
  refine ⟨fun ci cm am m => roi_mes_eq_coe_iff, ?_, ?_, ?_⟩
  · refine roi_mes_eq_coe_iff.mpr ⟨⟨le_refl 1, by norm_num, ?_⟩, fun k hk _ _ => hk⟩
    rw [round2_cex_gain]
  · rw [hg]
    norm_num
  · rw [hg]
    norm_num

/-- Witness for C10: the characterization applied at the concrete
scenario input reports month 1. -/
theorem breakeven_rounded_witness :
    roi_mes (1 / 250) 0 0 = WithTop.some 1 := by
  refine (breakeven_rounded.1 (1 / 250) 0 0 1).mpr ⟨⟨le_refl 1, by norm_num, ?_⟩,
    fun k hk _ _ => hk⟩
  rw [round2_cex_gain]
